import Mathlib

/-!
# InkStack render engine: shallow embedding

A shallow embedding of the pixel-transform core of `src/src/App.jsx`
(the InkStack lino-cut layer planner), together with proofs of the
specification's claims about it.

The embedded parts are:
* `blendColors`              — the multiply ink blend (App.jsx 27-34);
* the per-bucket display color precomputation (App.jsx 308-332);
* the per-pixel processing loop of `renderToContext` (App.jsx 335-411):
  luminance, threshold bucketing, composite grayscale / color output,
  and the two cut-guide strategies (stack and zone);
* `applyCrop` (App.jsx 171-198).

JavaScript `number` arithmetic on the luminance
`gray = 0.299*r + 0.587*g + 0.114*b` is idealised as exact real
(rational) arithmetic.  To keep every definition kernel-computable we
carry `1000 * gray`, which is the natural number
`299*r + 587*g + 114*b`; every comparison `gray < t` of the source
becomes `1000*gray < 1000*t`, and the lemma `lumTimes1000_lt_iff`
proves the two forms equivalent.  Likewise the grayscale band value
`Math.round(bucket / (layerCount-1) * 255)` is computed by exact
integer division and proved equal to the rational `round` by
`grayBandValue_eq_round`.  Stores into the canvas's
`Uint8ClampedArray` clamp integer values to `[0, 255]`.
-/

set_option linter.unusedVariables false

/-- An RGB color triple, channels as (byte-ranged) naturals.
Mirrors the `{r, g, b}` objects of App.jsx. -/
structure RGB where
  r : ℕ
  g : ℕ
  b : ℕ
deriving DecidableEq, Repr

/-- Multiply blend mode simulation for ink (App.jsx 27-34):
per channel `Math.floor((bg * fg) / 255)`; `Math.floor` on
non-negative integers is natural division. -/
def blendColors (bg fg : RGB) : RGB :=
  ⟨bg.r * fg.r / 255, bg.g * fg.g / 255, bg.b * fg.b / 255⟩

/-- Perceptual luminance `0.299*r + 0.587*g + 0.114*b` (App.jsx 340)
as an exact rational. -/
def luminance (r g b : ℕ) : ℚ :=
  0.299 * r + 0.587 * g + 0.114 * b

/-- One thousand times the luminance of App.jsx 340, as a natural number: the
kernel-computable carrier of `gray` used by the embedded pixel loop. -/
def lumTimes1000 (r g b : ℕ) : ℕ :=
  299 * r + 587 * g + 114 * b

/-- The threshold scan of App.jsx 344-351 / 372-378:
`bucketIndex` starts at the default (`layerCount - 1`, "paper") and the
loop breaks at the first threshold with `gray < sortedThresholds[t]`,
recording that index.  `gray1000` is `1000 *` the pixel's luminance and
`i` is the index of the head of the remaining list. -/
def bucketScan (gray1000 : ℕ) : List ℕ → ℕ → ℕ → ℕ
  | [], _, dflt => dflt
  | t :: ts, i, dflt => if gray1000 < 1000 * t then i else bucketScan gray1000 ts (i + 1) dflt

/-- Bucket assignment for a pixel, given the sorted threshold list:
the full loop of App.jsx 344-351. -/
def bucketOf (layerCount : ℕ) (sortedThresholds : List ℕ) (gray1000 : ℕ) : ℕ :=
  bucketScan gray1000 sortedThresholds 0 (layerCount - 1)

/-- The view tab (`activeTab`): `'composite'` or `'layers'` (cut guides). -/
inductive ViewTab where
  | composite
  | layers
deriving DecidableEq, Repr

/-- The cut strategy (`cutMode`): `'stack'` (reduction) or `'zone'` (isolated). -/
inductive CutMode where
  | stack
  | zone
deriving DecidableEq, Repr

/-- The color blend policy (`blendMode`): `'multiply'` or `'normal'` (opaque). -/
inductive BlendMode where
  | multiply
  | normal
deriving DecidableEq, Repr

/-- The configuration captured by `renderToContext` (App.jsx 250-265),
restricted to the fields the pixel loop reads.  `blurAmount` is applied
by the canvas before the pixel loop, and crop mode short-circuits the
loop entirely, so neither affects the embedded computation. -/
structure Config where
  activeTab : ViewTab
  layerCount : ℕ
  thresholds : List ℕ
  selectedLayerIndex : ℕ
  inverted : Bool
  cutMode : CutMode
  isColorMode : Bool
  paperColor : RGB
  inkColors : List RGB
  blendMode : BlendMode
deriving DecidableEq, Repr

/-- Display color for bucket `b` (App.jsx 315-331).
`inksToApplyCount = (layerCount - 1) - b`.  Under multiply, the loop
`for i in [0, inksToApplyCount)` blends `inksRgb[i]` when it exists,
which is a fold over `inks.take inksToApplyCount`.  Under opaque
(`'normal'`), the color is `inksRgb[inksToApplyCount - 1]` when
`inksToApplyCount > 0` (an out-of-range index would leave `currentRGB`
undefined in JS and crash at the store; the claims only concern
in-range indices, for which `getD` agrees), else the paper color. -/
def bucketColor (layerCount : ℕ) (paper : RGB) (inks : List RGB)
    (blend : BlendMode) (b : ℕ) : RGB :=
  let inksToApplyCount := layerCount - 1 - b
  match blend with
  | .multiply => (inks.take inksToApplyCount).foldl blendColors paper
  | .normal => if inksToApplyCount > 0 then inks.getD (inksToApplyCount - 1) paper else paper

/-- The per-render bucket color table (App.jsx 309-332): one display
color per bucket `b < layerCount`. -/
def bucketColorTable (cfg : Config) : List RGB :=
  (List.range cfg.layerCount).map
    (bucketColor cfg.layerCount cfg.paperColor cfg.inkColors cfg.blendMode)

/-- The grayscale band value `Math.round((bucketIndex / (layerCount - 1)) * 255)`
(App.jsx 360) computed in exact integer arithmetic
(`round (x) = ⌊x + 1/2⌋` for `x ≥ 0`), followed by the
`Uint8ClampedArray` clamp of the store.  `grayBandValue_eq_round` below
proves the integer-division form equal to the rational `round`. -/
def grayBandValue (layerCount bk : ℕ) : ℕ :=
  min ((510 * bk + (layerCount - 1)) / (2 * (layerCount - 1))) 255

/-- The body of the pixel loop (App.jsx 335-411) for one pixel:
given the pre-sorted thresholds `st`, the precomputed bucket color
table `bc` and the source channels, returns the output RGB channels
(the alpha byte is never written). -/
def renderPixel (cfg : Config) (st : List ℕ) (bc : List RGB) (r g b : ℕ) : ℕ × ℕ × ℕ :=
  let gray1000 := lumTimes1000 r g b
  match cfg.activeTab with
  | .composite =>
    let bucketIndex := bucketOf cfg.layerCount st gray1000
    if cfg.isColorMode then
      let c := bc.getD bucketIndex ⟨0, 0, 0⟩
      (c.r, c.g, c.b)
    else
      let val := grayBandValue cfg.layerCount bucketIndex
      (val, val, val)
  | .layers =>
    match cfg.cutMode with
    | .zone =>
      let bucketIndex := bucketOf cfg.layerCount st gray1000
      let targetBucket : ℤ := (cfg.layerCount : ℤ) - 1 - ((cfg.selectedLayerIndex : ℤ) + 1)
      let isKeep : Bool := decide ((bucketIndex : ℤ) = targetBucket)
      let isKeep := if cfg.inverted then !isKeep else isKeep
      let out := if isKeep then 0 else 255
      (out, out, out)
    | .stack =>
      let thresholdIndex : ℤ := (st.length : ℤ) - 1 - (cfg.selectedLayerIndex : ℤ)
      if thresholdIndex < 0 then
        (255, 255, 255)
      else
        let cutThreshold := st.getD thresholdIndex.toNat 0
        let isKeep : Bool := decide (gray1000 < 1000 * cutThreshold)
        let isKeep := if cfg.inverted then !isKeep else isKeep
        let out := if isKeep then 0 else 255
        (out, out, out)

/-- The pixel loop over the flat RGBA data array (`for i += 4`):
each quadruple's RGB is rewritten, its alpha byte untouched. -/
def renderQuads (cfg : Config) (st : List ℕ) (bc : List RGB) : List ℕ → List ℕ
  | r :: g :: b :: a :: rest =>
    let p := renderPixel cfg st bc r g b
    p.1 :: p.2.1 :: p.2.2 :: a :: renderQuads cfg st bc rest
  | rest => rest

/-- The sort `[...config.thresholds].sort((a, b) => a - b)` (App.jsx 306):
an ascending sort of a copy of the threshold list.  (Any comparison
sort of naturals produces the same list; insertion sort is used here
because it is structurally recursive and hence kernel-computable.) -/
def sortThresholds (ts : List ℕ) : List ℕ :=
  ts.insertionSort (· ≤ ·)

/-- The whole data pass of `renderToContext` (App.jsx 304-411):
sort the thresholds, precompute the bucket color table when the
composite color path will need it, then process every RGBA quadruple. -/
def renderData (cfg : Config) (data : List ℕ) : List ℕ :=
  let st := sortThresholds cfg.thresholds
  let bc := if cfg.activeTab = ViewTab.composite ∧ cfg.isColorMode then bucketColorTable cfg else []
  renderQuads cfg st bc data

/-- The bucket index as the specification words it: the index of the
first threshold strictly greater than the luminance, and
`layerCount - 1` when no threshold exceeds it. -/
def specBucket (layerCount : ℕ) (st : List ℕ) (lum : ℚ) : ℕ :=
  let i := st.findIdx (fun t : ℕ => decide (lum < (t : ℚ)))
  if i < st.length then i else layerCount - 1

/-- A list of `n` copies of the RGBA quadruple `q`: a uniform test image's flat
data array. -/
def repeatQuad (q : List ℕ) : ℕ → List ℕ
  | 0 => []
  | n + 1 => q ++ repeatQuad q n

/-- The concrete configuration of the end-to-end stack scenario:
`layerCount = 3`, thresholds `[85, 170]`, `selectedStep = 0`,
`inverted = false`, cut guides in stack (reduction) mode, with the
default paper and first two default inks. -/
def stackDemoCfg : Config :=
  ⟨.layers, 3, [85, 170], 0, false, .stack, false,
    ⟨255, 255, 255⟩, [⟨250, 204, 21⟩, ⟨239, 68, 68⟩], .multiply⟩

/-- The zone-mode variant of `stackDemoCfg`. -/
def zoneDemoCfg : Config :=
  ⟨.layers, 3, [85, 170], 0, false, .zone, false,
    ⟨255, 255, 255⟩, [⟨250, 204, 21⟩, ⟨239, 68, 68⟩], .multiply⟩

/-- The configuration `zoneDemoCfg` with `inverted = true`. -/
def zoneDemoCfgInv : Config :=
  ⟨.layers, 3, [85, 170], 0, true, .zone, false,
    ⟨255, 255, 255⟩, [⟨250, 204, 21⟩, ⟨239, 68, 68⟩], .multiply⟩

/-- The stack (reduction) stencil pixel as the specification words it:
`thresholdIndex = (layerCount - 2) - selectedStep`; all white when that
is negative; otherwise keep iff `luminance < sortedThresholds[thresholdIndex]`,
`inverted` flips keep, keep maps to black and not-keep to white. -/
def stackSpecPixel (layerCount step : ℕ) (st : List ℕ) (inv : Bool) (lum : ℚ) : ℕ × ℕ × ℕ :=
  if (layerCount : ℤ) - 2 - (step : ℤ) < 0 then (255, 255, 255)
  else
    let keep := decide (lum < (st.getD ((layerCount : ℤ) - 2 - (step : ℤ)).toNat 0 : ℚ))
    if Bool.xor keep inv then (0, 0, 0) else (255, 255, 255)

/-- The zone (isolated) stencil pixel as the specification words it:
`targetBucket = (layerCount - 1) - (selectedStep + 1)`; keep iff the
pixel's bucket (per the bucketizer rule) equals it exactly; `inverted`
flips keep; keep maps to black and not-keep to white. -/
def zoneSpecPixel (layerCount step : ℕ) (st : List ℕ) (inv : Bool) (lum : ℚ) : ℕ × ℕ × ℕ :=
  let keep := decide ((specBucket layerCount st lum : ℤ) =
    (layerCount : ℤ) - 1 - ((step : ℤ) + 1))
  if Bool.xor keep inv then (0, 0, 0) else (255, 255, 255)

/-- The composite-view (grayscale) variant of the demo configuration. -/
def compositeDemoCfg : Config :=
  ⟨.composite, 3, [85, 170], 0, false, .stack, false,
    ⟨255, 255, 255⟩, [⟨250, 204, 21⟩, ⟨239, 68, 68⟩], .multiply⟩

/-- The grayscale composite pass as the specification words it: per
RGBA quadruple, each RGB channel is replaced by
`round(bucket / (layerCount - 1) * 255)` for the pixel's bucket, and
the alpha byte is preserved. -/
def grayQuadMap (layerCount : ℕ) (st : List ℕ) : List ℕ → List ℕ
  | r :: g :: b :: a :: rest =>
    let v := (round ((specBucket layerCount st (luminance r g b) : ℚ) /
      ((layerCount : ℚ) - 1) * 255)).toNat
    v :: v :: v :: a :: grayQuadMap layerCount st rest
  | rest => rest

/-- Pixel-wise black/white complement of a flat RGBA array: each RGB
byte is replaced by `255 -` itself, alpha bytes untouched. -/
def invertQuads : List ℕ → List ℕ
  | r :: g :: b :: a :: rest => (255 - r) :: (255 - g) :: (255 - b) :: a :: invertQuads rest
  | rest => rest

/-- All-white stencil over a flat RGBA array: every RGB byte becomes
255, alpha bytes preserved. -/
def whiteQuads : List ℕ → List ℕ
  | _r :: _g :: _b :: a :: rest => 255 :: 255 :: 255 :: a :: whiteQuads rest
  | rest => rest

/-- The relation `bitonalOutput data out` says `out` is a strictly bitonal rendering
of `data`: quadruple by quadruple, the RGB channels are all 0 or all
255 and the alpha byte is copied from `data`. -/
def bitonalOutput : List ℕ → List ℕ → Prop
  | _r :: _g :: _b :: a :: rest, out =>
    ∃ o rest', (o = 0 ∨ o = 255) ∧ out = o :: o :: o :: a :: rest' ∧ bitonalOutput rest rest'
  | rest, out => out = rest

/-- A decoded RGBA image: width, height and the flat byte array. -/
structure PixelBuffer where
  width : ℕ
  height : ℕ
  data : List ℕ
deriving DecidableEq, Repr

/-- The interactive crop rectangle (App.jsx 62): `w`/`h` may be
negative while dragging. -/
structure CropRect where
  x : ℤ
  y : ℤ
  w : ℤ
  h : ℤ
deriving DecidableEq, Repr

/-- One RGBA quadruple of a buffer at integer pixel coordinates;
outside the buffer `drawImage` samples transparent black. -/
def pixelAt (m : PixelBuffer) (x y : ℤ) : List ℕ :=
  if 0 ≤ x ∧ x < (m.width : ℤ) ∧ 0 ≤ y ∧ y < (m.height : ℤ) then
    let base := 4 * (y.toNat * m.width + x.toNat)
    [m.data.getD base 0, m.data.getD (base + 1) 0,
     m.data.getD (base + 2) 0, m.data.getD (base + 3) 0]
  else [0, 0, 0, 0]

/-- The 1:1 pixel-region copy performed by
`ctx.drawImage(master, fx, fy, fw, fh, 0, 0, fw, fh)` in `applyCrop`
(App.jsx 188): a `fw × fh` buffer sampling the master from `(fx, fy)`. -/
def cropRegion (m : PixelBuffer) (fx fy : ℤ) (fw fh : ℕ) : PixelBuffer :=
  ⟨fw, fh,
    (List.range fh).flatMap fun py =>
      (List.range fw).flatMap fun px => pixelAt m (fx + (px : ℤ)) (fy + (py : ℤ))⟩

/-- The crop application `applyCrop` (App.jsx 171-198): a degenerate rectangle
(`w === 0 || h === 0`) returns early leaving the working buffer
unchanged; otherwise the working buffer is replaced by the master
region at `finalX/finalY/finalW/finalH` (negative extents folded into
the origin). -/
def applyCrop (working master : PixelBuffer) (rect : CropRect) : PixelBuffer :=
  if rect.w = 0 ∨ rect.h = 0 then working
  else
    let finalX := if rect.w < 0 then rect.x + rect.w else rect.x
    let finalY := if rect.h < 0 then rect.y + rect.h else rect.y
    let finalW := rect.w.natAbs
    let finalH := rect.h.natAbs
    cropRegion master finalX finalY finalW finalH

/-- Rectangle normalization as the specification words it:
`x' = x + w` and `w' = |w|` when `w < 0`, symmetrically for `h`. -/
def normalizeRect (rect : CropRect) : CropRect :=
  ⟨if rect.w < 0 then rect.x + rect.w else rect.x,
   if rect.h < 0 then rect.y + rect.h else rect.y,
   |rect.w|, |rect.h|⟩

/-- A malformed configuration: `thresholds` has length 1 although
`layerCount - 1 = 2`. -/
def malformedCfg : Config :=
  ⟨.composite, 3, [85], 0, false, .stack, false,
    ⟨255, 255, 255⟩, [⟨250, 204, 21⟩, ⟨239, 68, 68⟩], .multiply⟩

theorem lumTimes1000_eq (r g b : ℕ) :
    (lumTimes1000 r g b : ℚ) = 1000 * luminance r g b := by
  simp only [lumTimes1000, luminance]
  push_cast
  norm_num
  ring

/-- The source's comparison `gray < t` is equivalent to the embedded
comparison `1000*gray < 1000*t`. -/
theorem lumTimes1000_lt_iff (r g b t : ℕ) :
    lumTimes1000 r g b < 1000 * t ↔ luminance r g b < (t : ℚ) := by
  rw [show (lumTimes1000 r g b < 1000 * t) ↔
      ((lumTimes1000 r g b : ℚ) < ((1000 * t : ℕ) : ℚ)) by exact_mod_cast Iff.rfl]
  rw [lumTimes1000_eq]
  push_cast
  constructor <;> intro h <;> nlinarith

/-- The scan `bucketScan` computes `findIdx` of the first exceeded threshold,
offset by the starting index, with the default when none is exceeded. -/
theorem bucketScan_eq_findIdx (gray1000 : ℕ) (ts : List ℕ) (k dflt : ℕ) :
    bucketScan gray1000 ts k dflt =
      if ts.findIdx (fun t => decide (gray1000 < 1000 * t)) < ts.length
      then k + ts.findIdx (fun t => decide (gray1000 < 1000 * t))
      else dflt := by
  induction ts generalizing k with
  | nil => simp [bucketScan]
  | cons t ts ih =>
    by_cases h : gray1000 < 1000 * t
    · simp [bucketScan, h, List.findIdx_cons]
    · have hd : decide (gray1000 < 1000 * t) = false := decide_eq_false h
      simp only [bucketScan, if_neg h, List.findIdx_cons, hd, cond_false, List.length_cons]
      rw [ih (k + 1)]
      by_cases h2 : ts.findIdx (fun t => decide (gray1000 < 1000 * t)) < ts.length
      · rw [if_pos h2, if_pos (by omega)]
        omega
      · rw [if_neg h2, if_neg (by omega)]

/-- The two forms of the threshold predicate (scaled-natural and
rational) find the same index. -/
theorem findIdx_scaled_eq (r g b : ℕ) (ts : List ℕ) :
    ts.findIdx (fun t => decide (lumTimes1000 r g b < 1000 * t)) =
      ts.findIdx (fun t : ℕ => decide (luminance r g b < (t : ℚ))) := by
  have hpred : (fun t : ℕ => decide (lumTimes1000 r g b < 1000 * t)) =
      (fun t : ℕ => decide (luminance r g b < (t : ℚ))) := by
    funext t
    exact decide_eq_decide.mpr (lumTimes1000_lt_iff r g b t)
  rw [hpred]

/-- The code's bucket equals the specification's bucket, for every pixel
and every threshold list. -/
theorem bucketOf_eq_specBucket (layerCount : ℕ) (st : List ℕ) (r g b : ℕ) :
    bucketOf layerCount st (lumTimes1000 r g b) = specBucket layerCount st (luminance r g b) := by
  rw [bucketOf, bucketScan_eq_findIdx, findIdx_scaled_eq, specBucket]
  simp

/-- The bucket is at most `layerCount - 1` whenever the threshold list
has the configured length `layerCount - 1`. -/
theorem bucketOf_le (layerCount : ℕ) (st : List ℕ) (gray1000 : ℕ)
    (hlen : st.length = layerCount - 1) :
    bucketOf layerCount st gray1000 ≤ layerCount - 1 := by
  rw [bucketOf, bucketScan_eq_findIdx]
  split
  · omega
  · omega

/-- C1: for every RGB pixel and sorted threshold list of length
`layerCount - 1`, the bucketizer computes the luminance
`0.299*R + 0.587*G + 0.114*B` and returns the index of the first
threshold strictly greater than it (`layerCount - 1` when none
exceeds it); a luminance exactly equal to a threshold does not fall
into that threshold's (darker) bucket but into a later (lighter) one. -/
theorem bucketizer_first_strictly_greater (layerCount : ℕ) (st : List ℕ) (r g b : ℕ)
    (hsort : st.Sorted (· ≤ ·)) (hlen : st.length = layerCount - 1)
    (hL : 2 ≤ layerCount) :
    bucketOf layerCount st (lumTimes1000 r g b) = specBucket layerCount st (luminance r g b) ∧
    luminance r g b = 0.299 * r + 0.587 * g + 0.114 * b ∧
    (∀ i : ℕ, ∀ hi : i < st.length, luminance r g b = (st.get ⟨i, hi⟩ : ℚ) →
      i < bucketOf layerCount st (lumTimes1000 r g b)) := by
  refine ⟨bucketOf_eq_specBucket layerCount st r g b, rfl, ?_⟩
  intro i hi htie
  rw [bucketOf_eq_specBucket layerCount st r g b]
  simp only [specBucket]
  have hlt : i < st.findIdx (fun t : ℕ => decide (luminance r g b < (t : ℚ))) := by
    apply List.lt_findIdx_of_not hi
    intro j hji
    simp only [decide_eq_true_eq]
    intro habs
    have hj : (st.get ⟨j, Nat.lt_of_le_of_lt hji hi⟩ : ℕ) ≤ st.get ⟨i, hi⟩ := by
      rcases Nat.lt_or_ge j i with h2 | h2
      · exact hsort.rel_get_of_lt (by simpa using h2)
      · have hj_eq : j = i := by omega
        subst hj_eq
        exact le_refl _
    have hjq : ((st.get ⟨j, Nat.lt_of_le_of_lt hji hi⟩ : ℕ) : ℚ) ≤ ((st.get ⟨i, hi⟩ : ℕ) : ℚ) := by
      exact_mod_cast hj
    rw [← htie] at hjq
    exact absurd (lt_of_lt_of_le habs hjq) (lt_irrefl _)
  split
  · exact hlt
  · omega

/-- Witness for C1 at the concrete pixel (128,128,128) with
`layerCount = 3`, thresholds `[85, 170]`. -/
theorem bucketizer_first_strictly_greater_witness :
    List.Sorted (· ≤ ·) [85, 170] ∧ (List.length [85, 170] = 3 - 1) ∧ 2 ≤ 3 ∧
      (bucketOf 3 [85, 170] (lumTimes1000 128 128 128) =
        specBucket 3 [85, 170] (luminance 128 128 128) ∧
      luminance 128 128 128 =
        0.299 * ((128 : ℕ) : ℚ) + 0.587 * ((128 : ℕ) : ℚ) + 0.114 * ((128 : ℕ) : ℚ) ∧
      (∀ i : ℕ, ∀ hi : i < List.length [85, 170],
        luminance 128 128 128 = ((List.get [85, 170] ⟨i, hi⟩ : ℕ) : ℚ) →
        i < bucketOf 3 [85, 170] (lumTimes1000 128 128 128))) :=
  ⟨by decide, by decide, by decide,
    bucketizer_first_strictly_greater 3 [85, 170] 128 128 128 (by decide) (by decide) (by decide)⟩

/-- C2: in stack (reduction) cut-guide mode every pixel is rendered as
the spec's rule describes (white when `(layerCount-2) - selectedStep`
is negative, else keep iff luminance is below the indexed threshold,
flipped by `inverted`, keep mapping to black); and the end-to-end
scenario (uniform mid-gray, `layerCount = 3`, thresholds `[85, 170]`,
step 0, not inverted) yields an all-black stencil. -/
theorem stack_cut_guide_rule (cfg : Config) (st : List ℕ) (bc : List RGB) (r g b : ℕ)
    (htab : cfg.activeTab = ViewTab.layers) (hcut : cfg.cutMode = CutMode.stack)
    (hlen : st.length = cfg.layerCount - 1) (hL : 2 ≤ cfg.layerCount) :
    renderPixel cfg st bc r g b =
      stackSpecPixel cfg.layerCount cfg.selectedLayerIndex st cfg.inverted (luminance r g b) ∧
    renderData stackDemoCfg (repeatQuad [128, 128, 128, 255] 16) =
      repeatQuad [0, 0, 0, 255] 16 := by
  obtain ⟨tab, L, ts, step, inv, cm, icm, pc, ics, bm⟩ := cfg
  simp only [Config.activeTab] at htab
  simp only [Config.cutMode] at hcut
  simp only [Config.layerCount, Config.selectedLayerIndex, Config.inverted] at hlen hL ⊢
  subst htab hcut
  refine ⟨?_, by decide⟩
  simp only [renderPixel, stackSpecPixel]
  have hidx : (st.length : ℤ) - 1 - (step : ℤ) = (L : ℤ) - 2 - (step : ℤ) := by omega
  rw [hidx]
  by_cases hneg : (L : ℤ) - 2 - (step : ℤ) < 0
  · rw [if_pos hneg, if_pos hneg]
  · rw [if_neg hneg, if_neg hneg]
    have hdec : decide (lumTimes1000 r g b <
          1000 * st.getD ((L : ℤ) - 2 - (step : ℤ)).toNat 0) =
        decide (luminance r g b < ((st.getD ((L : ℤ) - 2 - (step : ℤ)).toNat 0 : ℕ) : ℚ)) :=
      decide_eq_decide.mpr (lumTimes1000_lt_iff r g b _)
    rw [hdec]
    cases inv <;> cases hk : decide (luminance r g b <
      ((st.getD ((L : ℤ) - 2 - (step : ℤ)).toNat 0 : ℕ) : ℚ)) <;> simp [Bool.xor]

/-- Witness for C2 at `stackDemoCfg`, thresholds `[85, 170]`, pixel
(128,128,128). -/
theorem stack_cut_guide_rule_witness :
    stackDemoCfg.activeTab = ViewTab.layers ∧ stackDemoCfg.cutMode = CutMode.stack ∧
    List.length [85, 170] = stackDemoCfg.layerCount - 1 ∧ 2 ≤ stackDemoCfg.layerCount ∧
    (renderPixel stackDemoCfg [85, 170] [] 128 128 128 =
      stackSpecPixel stackDemoCfg.layerCount stackDemoCfg.selectedLayerIndex [85, 170]
        stackDemoCfg.inverted (luminance 128 128 128) ∧
    renderData stackDemoCfg (repeatQuad [128, 128, 128, 255] 16) =
      repeatQuad [0, 0, 0, 255] 16) :=
  ⟨rfl, rfl, by decide, by decide,
    stack_cut_guide_rule stackDemoCfg [85, 170] [] 128 128 128 rfl rfl (by decide) (by decide)⟩

/-- C3: in zone (isolated) cut-guide mode every pixel is rendered as
the spec's rule describes (keep iff the pixel's bucket equals
`(layerCount-1) - (selectedStep+1)` exactly, flipped by `inverted`,
keep mapping to black); the end-to-end scenario (uniform mid-gray,
`layerCount = 3`, thresholds `[85, 170]`, step 0) yields an all-black
stencil, and all-white when inverted. -/
theorem zone_cut_guide_rule (cfg : Config) (st : List ℕ) (bc : List RGB) (r g b : ℕ)
    (htab : cfg.activeTab = ViewTab.layers) (hcut : cfg.cutMode = CutMode.zone) :
    renderPixel cfg st bc r g b =
      zoneSpecPixel cfg.layerCount cfg.selectedLayerIndex st cfg.inverted (luminance r g b) ∧
    renderData zoneDemoCfg (repeatQuad [128, 128, 128, 255] 16) =
      repeatQuad [0, 0, 0, 255] 16 ∧
    renderData zoneDemoCfgInv (repeatQuad [128, 128, 128, 255] 16) =
      repeatQuad [255, 255, 255, 255] 16 := by
  obtain ⟨tab, L, ts, step, inv, cm, icm, pc, ics, bm⟩ := cfg
  simp only [Config.activeTab] at htab
  simp only [Config.cutMode] at hcut
  subst htab hcut
  refine ⟨?_, by decide, by decide⟩
  simp only [renderPixel, zoneSpecPixel, Config.layerCount, Config.selectedLayerIndex,
    Config.inverted]
  rw [bucketOf_eq_specBucket]
  cases inv <;> cases hk : decide ((specBucket L st (luminance r g b) : ℤ) =
    (L : ℤ) - 1 - ((step : ℤ) + 1)) <;> simp [Bool.xor]

/-- Reading a list at the indices `0 .. n-1` is taking its first `n`
elements, when `n` is within bounds. -/
theorem map_range_getD_eq_take {α : Type} (l : List α) (n : ℕ) (d : α) (h : n ≤ l.length) :
    (List.range n).map (fun i => l.getD i d) = l.take n := by
  apply List.ext_getElem
  · simp [h]
  · intro i h1 h2
    simp only [List.getElem_map, List.getElem_range, List.getElem_take]
    have hi : i < l.length := by
      simp only [List.length_map, List.length_range] at h1
      omega
    simp [List.getD_eq_getElem?_getD, List.getElem?_eq_getElem hi]

/-- C4: for every bucket `b` with `inksToApply = layerCount-1-b`, the
Multiply policy color is the paper color sequentially multiply-blended
with the inks at indices `0 .. inksToApply-1` in order, and the Opaque
policy color is the ink at index `inksToApply - 1` when
`inksToApply > 0` and the paper color otherwise; multiply-blending
white once with (128,64,0) gives (128,64,0) and twice gives (64,16,0). -/
theorem ink_compositor_policies (layerCount : ℕ) (paper : RGB) (inks : List RGB) (bk : ℕ)
    (hinks : inks.length = layerCount - 1) (hbk : bk ≤ layerCount - 1) :
    bucketColor layerCount paper inks .multiply bk =
      ((List.range (layerCount - 1 - bk)).map (fun i => inks.getD i ⟨0, 0, 0⟩)).foldl
        blendColors paper ∧
    (0 < layerCount - 1 - bk →
      inks[layerCount - 1 - bk - 1]? = some (bucketColor layerCount paper inks .normal bk)) ∧
    (layerCount - 1 - bk = 0 → bucketColor layerCount paper inks .normal bk = paper) ∧
    blendColors ⟨255, 255, 255⟩ ⟨128, 64, 0⟩ = ⟨128, 64, 0⟩ ∧
    blendColors (blendColors ⟨255, 255, 255⟩ ⟨128, 64, 0⟩) ⟨128, 64, 0⟩ = ⟨64, 16, 0⟩ := by
  refine ⟨?_, ?_, ?_, by decide, by decide⟩
  · rw [map_range_getD_eq_take inks (layerCount - 1 - bk) ⟨0, 0, 0⟩ (by omega)]
    rfl
  · intro hpos
    have hidx : layerCount - 1 - bk - 1 < inks.length := by omega
    simp only [bucketColor, if_pos hpos]
    simp [List.getD_eq_getElem?_getD, List.getElem?_eq_getElem hidx]
  · intro hz
    simp [bucketColor, hz]

/-- Witness for C4: `layerCount = 3`, white paper, the two default
inks, bucket 0 (both inks applied). -/
theorem ink_compositor_policies_witness :
    List.length [(⟨250, 204, 21⟩ : RGB), ⟨239, 68, 68⟩] = 3 - 1 ∧ 0 ≤ 3 - 1 ∧
    (bucketColor 3 ⟨255, 255, 255⟩ [⟨250, 204, 21⟩, ⟨239, 68, 68⟩] .multiply 0 =
      ((List.range (3 - 1 - 0)).map
        (fun i => List.getD [(⟨250, 204, 21⟩ : RGB), ⟨239, 68, 68⟩] i ⟨0, 0, 0⟩)).foldl
        blendColors ⟨255, 255, 255⟩ ∧
    (0 < 3 - 1 - 0 →
      [(⟨250, 204, 21⟩ : RGB), ⟨239, 68, 68⟩][3 - 1 - 0 - 1]? =
        some (bucketColor 3 ⟨255, 255, 255⟩ [⟨250, 204, 21⟩, ⟨239, 68, 68⟩] .normal 0)) ∧
    (3 - 1 - 0 = 0 →
      bucketColor 3 ⟨255, 255, 255⟩ [⟨250, 204, 21⟩, ⟨239, 68, 68⟩] .normal 0 = ⟨255, 255, 255⟩) ∧
    blendColors ⟨255, 255, 255⟩ ⟨128, 64, 0⟩ = ⟨128, 64, 0⟩ ∧
    blendColors (blendColors ⟨255, 255, 255⟩ ⟨128, 64, 0⟩) ⟨128, 64, 0⟩ = ⟨64, 16, 0⟩) :=
  ⟨by decide, by decide,
    ink_compositor_policies 3 ⟨255, 255, 255⟩ [⟨250, 204, 21⟩, ⟨239, 68, 68⟩] 0
      (by decide) (by decide)⟩

/-- Witness for C3 at `zoneDemoCfg`, thresholds `[85, 170]`, pixel
(128,128,128). -/
theorem zone_cut_guide_rule_witness :
    zoneDemoCfg.activeTab = ViewTab.layers ∧ zoneDemoCfg.cutMode = CutMode.zone ∧
    (renderPixel zoneDemoCfg [85, 170] [] 128 128 128 =
      zoneSpecPixel zoneDemoCfg.layerCount zoneDemoCfg.selectedLayerIndex [85, 170]
        zoneDemoCfg.inverted (luminance 128 128 128) ∧
    renderData zoneDemoCfg (repeatQuad [128, 128, 128, 255] 16) =
      repeatQuad [0, 0, 0, 255] 16 ∧
    renderData zoneDemoCfgInv (repeatQuad [128, 128, 128, 255] 16) =
      repeatQuad [255, 255, 255, 255] 16) :=
  ⟨rfl, rfl, zone_cut_guide_rule zoneDemoCfg [85, 170] [] 128 128 128 rfl rfl⟩

/-- The integer-division form of the grayscale band value equals the
specification's `round(bucket / (layerCount - 1) * 255)` whenever the
bucket is in range (so the clamp of the store is the identity). -/
theorem grayBandValue_eq_round (layerCount bk : ℕ) (hL : 2 ≤ layerCount)
    (hbk : bk ≤ layerCount - 1) :
    (grayBandValue layerCount bk : ℤ) =
      round ((bk : ℚ) / ((layerCount : ℚ) - 1) * 255) := by
  obtain ⟨n, rfl⟩ : ∃ n, layerCount = n + 2 := ⟨layerCount - 2, by omega⟩
  have hbk2 : bk ≤ n + 1 := by omega
  have hdiv : (510 * bk + (n + 1)) / (2 * (n + 1)) < 256 := by
    rw [Nat.div_lt_iff_lt_mul (by omega)]
    omega
  have hmin : grayBandValue (n + 2) bk = (510 * bk + (n + 1)) / (2 * (n + 1)) := by
    simp only [grayBandValue]
    have h1 : n + 2 - 1 = n + 1 := by omega
    rw [h1]
    exact min_eq_left (Nat.lt_succ_iff.mp hdiv)
  rw [hmin]
  have hq : (bk : ℚ) / (((n + 2 : ℕ) : ℚ) - 1) * 255 + 1 / 2 =
      ((510 * bk + (n + 1) : ℕ) : ℚ) / ((2 * (n + 1) : ℕ) : ℚ) := by
    have hne : ((n : ℚ) + 1) ≠ 0 := by positivity
    push_cast
    rw [show ((n : ℚ) + 2 - 1) = (n : ℚ) + 1 by ring]
    field_simp
    ring
  rw [round_eq, hq, ← Int.natCast_floor_eq_floor (by positivity), Nat.floor_div_eq_div]

/-- The pixel pass never changes the length of the data array. -/
theorem renderQuads_length (cfg : Config) (st : List ℕ) (bc : List RGB) :
    ∀ data : List ℕ, (renderQuads cfg st bc data).length = data.length
  | [] => rfl
  | [r] => rfl
  | [r, g] => rfl
  | [r, g, b] => rfl
  | r :: g :: b :: a :: rest => by
    simp only [renderQuads, List.length_cons]
    rw [renderQuads_length cfg st bc rest]

/-- In grayscale composite mode a pixel is rendered as the rounded
banded gray of its spec bucket, on all three channels. -/
theorem renderPixel_composite_gray (cfg : Config) (st : List ℕ) (bc : List RGB) (r g b : ℕ)
    (htab : cfg.activeTab = ViewTab.composite) (hcol : cfg.isColorMode = false)
    (hL : 2 ≤ cfg.layerCount) (hlen : st.length = cfg.layerCount - 1) :
    renderPixel cfg st bc r g b =
      ((round ((specBucket cfg.layerCount st (luminance r g b) : ℚ) /
          ((cfg.layerCount : ℚ) - 1) * 255)).toNat,
       (round ((specBucket cfg.layerCount st (luminance r g b) : ℚ) /
          ((cfg.layerCount : ℚ) - 1) * 255)).toNat,
       (round ((specBucket cfg.layerCount st (luminance r g b) : ℚ) /
          ((cfg.layerCount : ℚ) - 1) * 255)).toNat) := by
  obtain ⟨tab, L, ts, step, inv, cm, icm, pc, ics, bm⟩ := cfg
  simp only [Config.activeTab] at htab
  simp only [Config.isColorMode] at hcol
  simp only [Config.layerCount] at hL hlen ⊢
  subst htab hcol
  simp only [renderPixel, if_neg Bool.false_ne_true]
  rw [← bucketOf_eq_specBucket L st r g b]
  have h1 : (grayBandValue L (bucketOf L st (lumTimes1000 r g b)) : ℤ) =
      round ((bucketOf L st (lumTimes1000 r g b) : ℚ) / ((L : ℚ) - 1) * 255) :=
    grayBandValue_eq_round L _ hL (bucketOf_le L st _ hlen)
  have h2 : grayBandValue L (bucketOf L st (lumTimes1000 r g b)) =
      (round ((bucketOf L st (lumTimes1000 r g b) : ℚ) / ((L : ℚ) - 1) * 255)).toNat := by
    rw [← h1, Int.toNat_natCast]
  rw [h2]

/-- In grayscale composite mode the pixel pass is exactly the spec's
`grayQuadMap`. -/
theorem renderQuads_eq_grayQuadMap (cfg : Config) (st : List ℕ) (bc : List RGB)
    (htab : cfg.activeTab = ViewTab.composite) (hcol : cfg.isColorMode = false)
    (hL : 2 ≤ cfg.layerCount) (hlen : st.length = cfg.layerCount - 1) :
    ∀ data : List ℕ, renderQuads cfg st bc data = grayQuadMap cfg.layerCount st data
  | [] => rfl
  | [r] => rfl
  | [r, g] => rfl
  | [r, g, b] => rfl
  | r :: g :: b :: a :: rest => by
    simp only [renderQuads, grayQuadMap]
    rw [renderPixel_composite_gray cfg st bc r g b htab hcol hL hlen,
      renderQuads_eq_grayQuadMap cfg st bc htab hcol hL hlen rest]

/-- C5: the grayscale composite render keeps the buffer length and
every alpha byte, replaces each pixel's RGB by the banded gray value
`round(bucket / (layerCount - 1) * 255)` of its bucket (shown by the
equality with `grayQuadMap`), and on the uniform mid-gray demo image
with `layerCount = 3`, thresholds `[85, 170]`, produces value 128 with
alpha 255 at every pixel. -/
theorem composite_renderer_grayscale (cfg : Config) (data : List ℕ)
    (htab : cfg.activeTab = ViewTab.composite) (hcol : cfg.isColorMode = false)
    (hL : 2 ≤ cfg.layerCount) (hlen : cfg.thresholds.length = cfg.layerCount - 1) :
    (renderData cfg data).length = data.length ∧
    renderData cfg data = grayQuadMap cfg.layerCount (sortThresholds cfg.thresholds) data ∧
    renderData compositeDemoCfg (repeatQuad [128, 128, 128, 255] 16) =
      repeatQuad [128, 128, 128, 255] 16 := by
  have hst : (sortThresholds cfg.thresholds).length = cfg.layerCount - 1 := by
    rw [sortThresholds, List.length_insertionSort]
    exact hlen
  refine ⟨?_, ?_, by decide⟩
  · simp only [renderData]
    exact renderQuads_length cfg _ _ data
  · simp only [renderData]
    exact renderQuads_eq_grayQuadMap cfg _ _ htab hcol hL hst data

/-- Witness for C5 at `compositeDemoCfg` on the 4×4 uniform mid-gray
image. -/
theorem composite_renderer_grayscale_witness :
    compositeDemoCfg.activeTab = ViewTab.composite ∧
    compositeDemoCfg.isColorMode = false ∧
    2 ≤ compositeDemoCfg.layerCount ∧
    compositeDemoCfg.thresholds.length = compositeDemoCfg.layerCount - 1 ∧
    ((renderData compositeDemoCfg (repeatQuad [128, 128, 128, 255] 16)).length =
      (repeatQuad [128, 128, 128, 255] 16).length ∧
    renderData compositeDemoCfg (repeatQuad [128, 128, 128, 255] 16) =
      grayQuadMap compositeDemoCfg.layerCount (sortThresholds compositeDemoCfg.thresholds)
        (repeatQuad [128, 128, 128, 255] 16) ∧
    renderData compositeDemoCfg (repeatQuad [128, 128, 128, 255] 16) =
      repeatQuad [128, 128, 128, 255] 16) :=
  ⟨rfl, rfl, by decide, by decide,
    composite_renderer_grayscale compositeDemoCfg (repeatQuad [128, 128, 128, 255] 16)
      rfl rfl (by decide) (by decide)⟩

/-- In cut-guide mode every pixel renders to pure black or pure white. -/
theorem renderPixel_layers_bitonal (cfg : Config) (st : List ℕ) (bc : List RGB) (r g b : ℕ)
    (htab : cfg.activeTab = ViewTab.layers) :
    renderPixel cfg st bc r g b = (0, 0, 0) ∨ renderPixel cfg st bc r g b = (255, 255, 255) := by
  obtain ⟨tab, L, ts, step, inv, cm, icm, pc, ics, bm⟩ := cfg
  simp only [Config.activeTab] at htab
  subst htab
  cases cm with
  | zone =>
    simp only [renderPixel]
    cases inv <;> cases hk : decide ((bucketOf L st (lumTimes1000 r g b) : ℤ) =
      (L : ℤ) - 1 - ((step : ℤ) + 1)) <;> simp [hk]
  | stack =>
    simp only [renderPixel]
    by_cases hneg : (st.length : ℤ) - 1 - (step : ℤ) < 0
    · rw [if_pos hneg]
      exact Or.inr rfl
    · rw [if_neg hneg]
      cases inv <;> cases hk : decide (lumTimes1000 r g b <
        1000 * st.getD ((st.length : ℤ) - 1 - (step : ℤ)).toNat 0) <;> simp [hk]

/-- Flipping `inverted` complements a cut-guide pixel, provided the
stack threshold index is not negative. -/
theorem renderPixel_layers_invert (cfg : Config) (st : List ℕ) (bc bc2 : List RGB) (r g b : ℕ)
    (htab : cfg.activeTab = ViewTab.layers)
    (hidx : 0 ≤ (st.length : ℤ) - 1 - (cfg.selectedLayerIndex : ℤ)) :
    ∃ o : ℕ, o ≤ 255 ∧ renderPixel cfg st bc r g b = (o, o, o) ∧
      renderPixel {cfg with inverted := !cfg.inverted} st bc2 r g b =
        (255 - o, 255 - o, 255 - o) := by
  obtain ⟨tab, L, ts, step, inv, cm, icm, pc, ics, bm⟩ := cfg
  simp only [Config.activeTab] at htab
  simp only [Config.selectedLayerIndex] at hidx
  subst htab
  cases cm with
  | zone =>
    simp only [renderPixel]
    cases inv <;> cases hk : decide ((bucketOf L st (lumTimes1000 r g b) : ℤ) =
        (L : ℤ) - 1 - ((step : ℤ) + 1))
    · exact ⟨255, by omega, by simp [hk], by simp [hk]⟩
    · exact ⟨0, by omega, by simp [hk], by simp [hk]⟩
    · exact ⟨0, by omega, by simp [hk], by simp [hk]⟩
    · exact ⟨255, by omega, by simp [hk], by simp [hk]⟩
  | stack =>
    simp only [renderPixel, if_neg (not_lt.mpr hidx)]
    cases inv <;> cases hk : decide (lumTimes1000 r g b <
      1000 * st.getD ((st.length : ℤ) - 1 - (step : ℤ)).toNat 0)
    · exact ⟨255, by omega, by simp [hk], by simp [hk]⟩
    · exact ⟨0, by omega, by simp [hk], by simp [hk]⟩
    · exact ⟨0, by omega, by simp [hk], by simp [hk]⟩
    · exact ⟨255, by omega, by simp [hk], by simp [hk]⟩

/-- The pixel pass of a cut-guide render is a bitonal rendering of its
input. -/
theorem renderQuads_bitonal (cfg : Config) (st : List ℕ) (bc : List RGB)
    (htab : cfg.activeTab = ViewTab.layers) :
    ∀ data : List ℕ, bitonalOutput data (renderQuads cfg st bc data)
  | [] => rfl
  | [r] => rfl
  | [r, g] => rfl
  | [r, g, b] => rfl
  | r :: g :: b :: a :: rest => by
    simp only [bitonalOutput, renderQuads]
    rcases renderPixel_layers_bitonal cfg st bc r g b htab with h | h
    · exact ⟨0, renderQuads cfg st bc rest, Or.inl rfl, by rw [h],
        renderQuads_bitonal cfg st bc htab rest⟩
    · exact ⟨255, renderQuads cfg st bc rest, Or.inr rfl, by rw [h],
        renderQuads_bitonal cfg st bc htab rest⟩

/-- Flipping `inverted` complements the whole pixel pass in cut-guide
mode, provided the stack threshold index is not negative. -/
theorem renderQuads_invert (cfg : Config) (st : List ℕ) (bc bc2 : List RGB)
    (htab : cfg.activeTab = ViewTab.layers)
    (hidx : 0 ≤ (st.length : ℤ) - 1 - (cfg.selectedLayerIndex : ℤ)) :
    ∀ data : List ℕ,
      renderQuads {cfg with inverted := !cfg.inverted} st bc2 data =
        invertQuads (renderQuads cfg st bc data)
  | [] => rfl
  | [r] => rfl
  | [r, g] => rfl
  | [r, g, b] => rfl
  | r :: g :: b :: a :: rest => by
    obtain ⟨o, ho, h1, h2⟩ := renderPixel_layers_invert cfg st bc bc2 r g b htab hidx
    simp only [renderQuads]
    rw [h1, h2]
    simp only [invertQuads]
    rw [renderQuads_invert cfg st bc bc2 htab hidx rest]

/-- C7: for every layer count `≥ 2`, step in range, both strategies and
both inversion flags, the cut-guide output is strictly bitonal — every
pixel is exactly (0,0,0) or (255,255,255) — with alpha preserved. -/
theorem cut_guide_bitonal (cfg : Config) (data : List ℕ)
    (htab : cfg.activeTab = ViewTab.layers) (hL : 2 ≤ cfg.layerCount)
    (hstep : cfg.selectedLayerIndex ≤ cfg.layerCount - 2)
    (hlen : cfg.thresholds.length = cfg.layerCount - 1) :
    bitonalOutput data (renderData cfg data) := by
  simp only [renderData]
  exact renderQuads_bitonal cfg _ _ htab data

/-- Witness for C7 at `stackDemoCfg` on a single mid-gray pixel. -/
theorem cut_guide_bitonal_witness :
    stackDemoCfg.activeTab = ViewTab.layers ∧ 2 ≤ stackDemoCfg.layerCount ∧
    stackDemoCfg.selectedLayerIndex ≤ stackDemoCfg.layerCount - 2 ∧
    stackDemoCfg.thresholds.length = stackDemoCfg.layerCount - 1 ∧
    bitonalOutput [128, 128, 128, 255] (renderData stackDemoCfg [128, 128, 128, 255]) :=
  ⟨rfl, by decide, by decide, by decide,
    cut_guide_bitonal stackDemoCfg [128, 128, 128, 255] rfl (by decide) (by decide) (by decide)⟩

/-- C6: for every input buffer and every configuration with
`layerCount ≥ 2`, `selectedStep ∈ [0, layerCount-2]` and a
`layerCount - 1`-element threshold list, under either cut strategy,
flipping `inverted` produces the exact pixel-wise black/white
complement of the cut-guide output, alpha unchanged. -/
theorem inverted_complement (cfg : Config) (data : List ℕ)
    (htab : cfg.activeTab = ViewTab.layers) (hL : 2 ≤ cfg.layerCount)
    (hstep : cfg.selectedLayerIndex ≤ cfg.layerCount - 2)
    (hlen : cfg.thresholds.length = cfg.layerCount - 1) :
    renderData {cfg with inverted := !cfg.inverted} data =
      invertQuads (renderData cfg data) := by
  have hst : (sortThresholds cfg.thresholds).length = cfg.layerCount - 1 := by
    rw [sortThresholds, List.length_insertionSort]
    exact hlen
  have hidx : 0 ≤ ((sortThresholds cfg.thresholds).length : ℤ) -
      1 - (cfg.selectedLayerIndex : ℤ) := by omega
  simp only [renderData]
  exact renderQuads_invert cfg _ _ _ htab hidx data

/-- Witness for C6 at `zoneDemoCfg` on the uniform mid-gray image. -/
theorem inverted_complement_witness :
    zoneDemoCfg.activeTab = ViewTab.layers ∧ 2 ≤ zoneDemoCfg.layerCount ∧
    zoneDemoCfg.selectedLayerIndex ≤ zoneDemoCfg.layerCount - 2 ∧
    zoneDemoCfg.thresholds.length = zoneDemoCfg.layerCount - 1 ∧
    renderData {zoneDemoCfg with inverted := !zoneDemoCfg.inverted}
        (repeatQuad [128, 128, 128, 255] 16) =
      invertQuads (renderData zoneDemoCfg (repeatQuad [128, 128, 128, 255] 16)) :=
  ⟨rfl, by decide, by decide, by decide,
    inverted_complement zoneDemoCfg (repeatQuad [128, 128, 128, 255] 16)
      rfl (by decide) (by decide) (by decide)⟩

/-- A stack-mode pixel is white, irrespective of `inverted`, when the
threshold index is negative. -/
theorem renderPixel_stack_white (cfg : Config) (st : List ℕ) (bc : List RGB) (r g b : ℕ)
    (htab : cfg.activeTab = ViewTab.layers) (hcut : cfg.cutMode = CutMode.stack)
    (hneg : (st.length : ℤ) - 1 - (cfg.selectedLayerIndex : ℤ) < 0) :
    renderPixel cfg st bc r g b = (255, 255, 255) := by
  obtain ⟨tab, L, ts, step, inv, cm, icm, pc, ics, bm⟩ := cfg
  simp only [Config.activeTab] at htab
  simp only [Config.cutMode] at hcut
  simp only [Config.selectedLayerIndex] at hneg
  subst htab hcut
  simp only [renderPixel, if_pos hneg]

/-- The whole stack-mode pixel pass is all white when the threshold
index is negative. -/
theorem renderQuads_stack_white (cfg : Config) (st : List ℕ) (bc : List RGB)
    (htab : cfg.activeTab = ViewTab.layers) (hcut : cfg.cutMode = CutMode.stack)
    (hneg : (st.length : ℤ) - 1 - (cfg.selectedLayerIndex : ℤ) < 0) :
    ∀ data : List ℕ, renderQuads cfg st bc data = whiteQuads data
  | [] => rfl
  | [r] => rfl
  | [r, g] => rfl
  | [r, g, b] => rfl
  | r :: g :: b :: a :: rest => by
    simp only [renderQuads, whiteQuads]
    rw [renderPixel_stack_white cfg st bc r g b htab hcut hneg,
      renderQuads_stack_white cfg st bc htab hcut hneg rest]

/-- C10: in stack mode, when `(layerCount-2) - selectedStep` is
negative, the output is the all-white stencil for both values of
`inverted`; in particular the inverted and non-inverted outputs of this
edge case are identical rather than complements. -/
theorem stack_negative_index_ignores_inverted (cfg : Config) (data : List ℕ)
    (htab : cfg.activeTab = ViewTab.layers) (hcut : cfg.cutMode = CutMode.stack)
    (hlen : cfg.thresholds.length = cfg.layerCount - 1)
    (hneg : (cfg.layerCount : ℤ) - 2 - (cfg.selectedLayerIndex : ℤ) < 0) :
    (∀ inv : Bool, renderData {cfg with inverted := inv} data = whiteQuads data) ∧
    renderData {cfg with inverted := true} data =
      renderData {cfg with inverted := false} data := by
  have hwhite : ∀ inv : Bool, renderData {cfg with inverted := inv} data = whiteQuads data := by
    intro inv
    have hst : (sortThresholds cfg.thresholds).length = cfg.layerCount - 1 := by
      rw [sortThresholds, List.length_insertionSort]
      exact hlen
    have hneg2 : ((sortThresholds cfg.thresholds).length : ℤ) - 1 -
        (cfg.selectedLayerIndex : ℤ) < 0 := by omega
    simp only [renderData]
    exact renderQuads_stack_white {cfg with inverted := inv} _ _ htab hcut hneg2 data
  exact ⟨hwhite, by rw [hwhite true, hwhite false]⟩

/-- Witness for C10: `layerCount = 3`, thresholds `[85, 170]`, step 5
(far out of range), on a single mid-gray pixel. -/
theorem stack_negative_index_ignores_inverted_witness :
    ({stackDemoCfg with selectedLayerIndex := 5} : Config).activeTab = ViewTab.layers ∧
    ({stackDemoCfg with selectedLayerIndex := 5} : Config).cutMode = CutMode.stack ∧
    ({stackDemoCfg with selectedLayerIndex := 5} : Config).thresholds.length =
      ({stackDemoCfg with selectedLayerIndex := 5} : Config).layerCount - 1 ∧
    ((({stackDemoCfg with selectedLayerIndex := 5} : Config).layerCount : ℤ) - 2 -
      (({stackDemoCfg with selectedLayerIndex := 5} : Config).selectedLayerIndex : ℤ) < 0) ∧
    ((∀ inv : Bool,
      renderData {{stackDemoCfg with selectedLayerIndex := 5} with inverted := inv}
        [128, 128, 128, 255] = whiteQuads [128, 128, 128, 255]) ∧
    renderData {{stackDemoCfg with selectedLayerIndex := 5} with inverted := true}
        [128, 128, 128, 255] =
      renderData {{stackDemoCfg with selectedLayerIndex := 5} with inverted := false}
        [128, 128, 128, 255]) :=
  ⟨rfl, rfl, by decide, by decide,
    stack_negative_index_ignores_inverted {stackDemoCfg with selectedLayerIndex := 5}
      [128, 128, 128, 255] rfl rfl (by decide) (by decide)⟩

/-- C8: the Crop Transform gives the same result on a rectangle with
negative extent as on its normalization (`x' = x + w`, `w' = |w|` when
`w < 0`, symmetrically for `h`); rect (50,50,-30,-20) crops like
(20,30,30,20); a degenerate rectangle (zero `w` or zero `h`) leaves
the working buffer unchanged. -/
theorem crop_normalizes_negative_extents (working master : PixelBuffer) (rect : CropRect) :
    applyCrop working master rect = applyCrop working master (normalizeRect rect) ∧
    applyCrop working master ⟨50, 50, -30, -20⟩ =
      applyCrop working master ⟨20, 30, 30, 20⟩ ∧
    applyCrop working master ⟨rect.x, rect.y, 0, rect.h⟩ = working ∧
    applyCrop working master ⟨rect.x, rect.y, rect.w, 0⟩ = working := by
  obtain ⟨x, y, w, h⟩ := rect
  refine ⟨?_, ?_, by simp [applyCrop], by simp [applyCrop]⟩
  · simp only [applyCrop, normalizeRect]
    by_cases hdeg : w = 0 ∨ h = 0
    · rw [if_pos hdeg, if_pos (by rcases hdeg with h1 | h1 <;> simp [h1])]
    · have hdeg2 : ¬(|w| = 0 ∨ |h| = 0) := by
        simp only [abs_eq_zero]
        exact hdeg
      rw [if_neg hdeg, if_neg hdeg2,
        if_neg (show ¬(|w| < 0) from not_lt.mpr (abs_nonneg w)),
        if_neg (show ¬(|h| < 0) from not_lt.mpr (abs_nonneg h)),
        Int.natAbs_abs, Int.natAbs_abs]
  · have h1 : ¬((-30 : ℤ) = 0 ∨ (-20 : ℤ) = 0) := by decide
    have h2 : ¬((30 : ℤ) = 0 ∨ (20 : ℤ) = 0) := by decide
    simp only [applyCrop, if_neg h1, if_neg h2]
    norm_num

/-- C9 counterexample: with the malformed configuration (thresholds
length 1 instead of `layerCount - 1 = 2`) the render engine does not
reject the call: it silently produces an output buffer. -/
theorem render_malformed_produces_output :
    renderData malformedCfg [128, 128, 128, 255] = [255, 255, 255, 255] := by decide

/-- C9 (amended): the render engine performs no configuration
validation; for every configuration — malformed ones included — and
every input buffer it produces an output buffer of the same length
(in grayscale and cut-guide modes) rather than failing fast. -/
theorem render_never_rejects (cfg : Config) (data : List ℕ)
    (hcol : cfg.isColorMode = false) :
    (renderData cfg data).length = data.length := by
  simp only [renderData]
  exact renderQuads_length cfg _ _ data

/-- Witness for the amended C9 at the malformed configuration. -/
theorem render_never_rejects_witness :
    malformedCfg.isColorMode = false ∧
    (renderData malformedCfg [128, 128, 128, 255]).length = [128, 128, 128, 255].length :=
  ⟨rfl, render_never_rejects malformedCfg [128, 128, 128, 255] rfl⟩
